import Mathlib

/-!
# Pill Assistant admin panel (`custom_components/pill_assistant/panel.js`)

A shallow embedding of the custom element `HaPanelPillAssistant`:

* the data read from the host (`hass.states`, entity attributes, panel configuration),
* the projection computed at the top of `_update` (`meds`, the cards, the dose history),
* the controller (`set hass`, `set panel`, `_render`, `_update`) as explicit state passing on a
  `Panel` record,
* the markup written by `_update` (the card template of lines 75-86, the table of lines 105-107)
  as the strings the code builds, interpolated values unescaped,
* `_handleAction` as a function returning the service calls it issued and its outcome.

Host functions are not part of the file and are modelled as follows.

* `String.prototype.localeCompare` is a parameter `localeCompare : String → String → Int`
  (negative, zero, positive).  Results about order assume it is a consistent comparator.
* `Array.prototype.sort` is a stable sort; for a consistent comparator its result is the unique
  stable arrangement, computed here by insertion sort.
* `hass.callService` is a field of the connection, which may resolve or reject.
* The HTML fragment parser behind `card.innerHTML = ...`, `querySelectorAll('button.pa-btn')`
  and `button.dataset` is modelled by `parseButtons`, a tokenizer and tree builder following
  the HTML standard on well-nested markup of `div`, `strong`, `span` and `button` elements
  without character references.  On any other markup the result is left to a parameter
  `hostParse`, about which nothing is assumed.
* Attribute values have the types of the entity contract (strings, and a list of strings for
  `Doses today`); an absent attribute is `none`.
-/

namespace PillAssistant

/-! ## JavaScript helpers -/

/-- JS `s || d` for a string `s`: the empty string is falsy. -/
def strOr (s d : String) : String := if s = "" then d else s

/-- JS `v || d` for a possibly absent string `v`: `undefined` and `''` are falsy. -/
def orElse (v : Option String) (d : String) : String :=
  match v with
  | none => d
  | some s => strOr s d

/-- JS `a || b` where both operands are possibly absent strings. -/
def orOpt (a b : Option String) : Option String :=
  match a with
  | none => b
  | some s => if s = "" then b else some s

/-- JS truthiness of a possibly absent string. -/
def truthy (v : Option String) : Bool :=
  match v with
  | none => false
  | some s => s != ""

/-- JS `s.startsWith(searchString)`. -/
def startsWith (s searchString : String) : Bool :=
  searchString.toList.isPrefixOf s.toList

/-- JS `xs.sort(comparefn)`: stable, `a` stays before `b` when `comparefn(a, b) ≤ 0`. -/
def sort {α : Type} (comparefn : α → α → Int) (xs : List α) : List α :=
  List.insertionSort (fun a b => comparefn a b ≤ 0) xs

/-- A consistent comparator in the sense of ECMAScript: the sign is antisymmetric and
"not after" is transitive. -/
def Consistent (cmp : String → String → Int) : Prop :=
  (∀ a b, cmp a b < 0 ↔ 0 < cmp b a) ∧ (∀ a b c, cmp a b ≤ 0 → cmp b c ≤ 0 → cmp a c ≤ 0)

/-- Lexicographic comparison of two character lists by code point. -/
def compareChars : List Char → List Char → Int
  | [], [] => 0
  | [], _ :: _ => -1
  | _ :: _, [] => 1
  | a :: as, b :: bs =>
    if a.toNat < b.toNat then -1 else if b.toNat < a.toNat then 1 else compareChars as bs

/-- Lexical comparison of strings: by code points, a concrete consistent comparator. -/
def codePointCompare (a b : String) : Int := compareChars a.toList b.toList

/-- Comparison of strings by code points after folding ASCII letters to lower case: a
consistent comparator that, like a locale's collation, orders letters before it looks at
their case. -/
def caseFoldCompare (a b : String) : Int :=
  compareChars (a.toList.map Char.toLower) (b.toList.map Char.toLower)

/-! ## Data model -/

/-- The recognised attributes of an entity; `none` is an absent attribute. -/
structure Attributes where
  /-- Attribute `friendly_name` -/
  friendly_name : Option String
  /-- Attribute `'Medication ID'` -/
  medication_id : Option String
  /-- Attribute `'Doses today'` -/
  doses_today : Option (List String)
  /-- Attribute `taken_scheduled_ratio` -/
  taken_scheduled_ratio : Option String
  /-- Attribute `'Next dose at'` -/
  next_dose_at : Option String
  /-- Attribute `next_dose_time` -/
  next_dose_time : Option String
  /-- Attribute `'Last taken at'` -/
  last_taken_at : Option String
  /-- Attribute `last_taken` -/
  last_taken : Option String
deriving DecidableEq, Repr

/-- An entity record of the snapshot. -/
structure Entity where
  entity_id : String
  state : String
  attributes : Attributes
deriving DecidableEq, Repr

/-- The payload of `hass.callService(domain, service, { medication_id })`. -/
structure ServiceCall where
  domain : String
  service : String
  medication_id : String
deriving DecidableEq, Repr

/-- The connection object handed to `set hass`: the snapshot `states` (a mapping, kept as the
list of its properties in enumeration order) and the host's `callService`, which resolves
(`.ok`) or rejects (`.error`). -/
structure Hass where
  states : List (String × Entity)
  callService : ServiceCall → Except String Unit

/-- JS `Object.values(o)`. -/
def Object.values {α : Type} (o : List (String × α)) : List α := o.map Prod.snd

/-- The `config` of the panel description. -/
structure Config where
  log_path : Option String
deriving DecidableEq, Repr

/-- The object handed to `set panel`. -/
structure PanelInfo where
  config : Option Config
deriving DecidableEq, Repr

/-! ## The projection computed in `_update` -/

/-- The sort key of line 53: `attributes.friendly_name || ''`. -/
def sortKey (e : Entity) : String := orElse e.attributes.friendly_name ""

/-- The name shown on a card and in the history: `attributes.friendly_name || entity_id`. -/
def displayName (e : Entity) : String := orElse e.attributes.friendly_name e.entity_id

/-- Line 68: `med.attributes['Medication ID'] || med.entity_id`. -/
def medId (med : Entity) : String := orElse med.attributes.medication_id med.entity_id

/-- Line 69: `med.attributes['Doses today'] || []` (an array is always truthy). -/
def doses (med : Entity) : List String :=
  match med.attributes.doses_today with
  | none => []
  | some ds => ds

/-- Lines 51-53: the medication list. -/
def meds (localeCompare : String → String → Int) (hass : Hass) : List Entity :=
  sort (fun a b => localeCompare (sortKey a) (sortKey b))
    ((Object.values hass.states).filter (fun st => startsWith st.entity_id "sensor.pa_"))

/-- One row of the flattened dose list (lines 96-99): `{ name, timestamp }`. -/
structure HistoryRow where
  name : String
  timestamp : String
deriving DecidableEq, Repr

/-- Lines 96-99: `meds.flatMap(m => (m.attributes['Doses today'] || []).map(ts => ...))`. -/
def allDoses (ms : List Entity) : List HistoryRow :=
  ms.flatMap (fun m => (doses m).map (fun ts => { name := displayName m, timestamp := ts }))

/-- Line 104: the comparator `(a.timestamp || '').localeCompare(b.timestamp || '')`. -/
def compareRows (localeCompare : String → String → Int) (a b : HistoryRow) : Int :=
  localeCompare (strOr a.timestamp "") (strOr b.timestamp "")

/-- Lines 103-104: the flattened doses, sorted by timestamp. -/
def sortedDoses (localeCompare : String → String → Int) (ms : List Entity) : List HistoryRow :=
  sort (compareRows localeCompare) (allDoses ms)

/-! ## Host: the HTML fragment parser

`card.innerHTML = markup` parses `markup` as a fragment in a `div`; the code then reads the
result back through `querySelectorAll('button.pa-btn')` and `button.dataset`.  The parser
below follows the tokenizer states and the "in body" rules of the HTML standard for the
markup it accepts, and answers `none` on anything else. -/

/-- The double quote U+0022. -/
def dquote : Char := Char.ofNat 34

/-- The apostrophe U+0027. -/
def squote : Char := Char.ofNat 39

/-- ASCII whitespace of the tokenizer: tab, line feed, form feed, space. -/
def isHtmlSpace (c : Char) : Bool :=
  c == Char.ofNat 9 || c == Char.ofNat 10 || c == Char.ofNat 12 || c == Char.ofNat 32

/-- Characters the model does not follow: U+0000 (replaced or dropped by the parser) and
carriage return (normalised before tokenization). -/
def isUnmodelled (c : Char) : Bool := c == Char.ofNat 0 || c == Char.ofNat 13

/-- A tag token: end-tag flag, name, attributes in source order. -/
structure HtmlTag where
  isEnd : Bool
  name : List Char
  attrs : List (List Char × List Char)
deriving DecidableEq, Repr

/-- The tokenizer states of the model, with the token under construction. -/
inductive TokenizerState where
  /-- Data state -/
  | data
  /-- Tag open state -/
  | tagOpen
  /-- End tag open state -/
  | endTagOpen
  /-- Tag name state -/
  | tagName (t : HtmlTag)
  /-- Before attribute name state -/
  | beforeAttrName (t : HtmlTag)
  /-- Attribute name state -/
  | attrName (t : HtmlTag) (n : List Char)
  /-- After attribute name state -/
  | afterAttrName (t : HtmlTag) (n : List Char)
  /-- Before attribute value state -/
  | beforeAttrValue (t : HtmlTag) (n : List Char)
  /-- Attribute value (double-quoted) state -/
  | attrValueDq (t : HtmlTag) (n v : List Char)
  /-- Attribute value (single-quoted) state -/
  | attrValueSq (t : HtmlTag) (n v : List Char)
  /-- Attribute value (unquoted) state -/
  | attrValueUnq (t : HtmlTag) (n v : List Char)
  /-- After attribute value (quoted) state -/
  | afterAttrValueQ (t : HtmlTag)
deriving DecidableEq, Repr

/-- The parser: tokenizer state, names of the open elements (innermost first), and the
`data-action` and `data-med` of each `button.pa-btn` element created so far. -/
structure HtmlParser where
  state : TokenizerState
  stack : List (List Char)
  found : List (Option String × Option String)
deriving DecidableEq, Repr

/-- Completes an attribute of the tag; a second attribute of the same name is dropped. -/
def HtmlTag.addAttr (t : HtmlTag) (n v : List Char) : HtmlTag :=
  if t.attrs.any (fun a => a.1 == n) then t else { t with attrs := t.attrs ++ [(n, v)] }

/-- DOM `element.getAttribute(n)`. -/
def HtmlTag.getAttribute (t : HtmlTag) (n : List Char) : Option String :=
  match t.attrs.find? (fun a => a.1 == n) with
  | none => none
  | some a => some (String.mk a.2)

/-- Splits a `class` value into its tokens at ASCII whitespace. -/
def classTokens : List Char → List Char → List (List Char)
  | cur, [] => if cur = [] then [] else [cur]
  | cur, c :: cs =>
    if isHtmlSpace c then (if cur = [] then classTokens [] cs else cur :: classTokens [] cs)
    else classTokens (cur ++ [c]) cs

/-- Selector `.cls`: the element's class list holds `cls`. -/
def HtmlTag.hasClass (t : HtmlTag) (cls : List Char) : Bool :=
  match t.attrs.find? (fun a => a.1 == "class".toList) with
  | none => false
  | some a => (classTokens [] a.2).contains cls

/-- The elements the tree builder of the model handles. -/
def supportedTags : List (List Char) :=
  ["div".toList, "strong".toList, "span".toList, "button".toList]

/-- Tree construction for a complete tag token.  A start tag opens an element (and records
it when it matches `button.pa-btn`); an end tag closes the current element.  Unsupported: other
element names, an end tag that does not match the current element, a `button` inside a
`button`. -/
def insertTag (p : HtmlParser) (t : HtmlTag) : Option HtmlParser :=
  if !supportedTags.contains t.name then none
  else if t.isEnd then
    match p.stack with
    | [] => none
    | top :: rest => if top = t.name then some { p with state := .data, stack := rest } else none
  else if t.name = "button".toList && p.stack.contains "button".toList then none
  else
    some
      { state := .data
        stack := t.name :: p.stack
        found :=
          if t.name = "button".toList && t.hasClass "pa-btn".toList then
            p.found ++ [(t.getAttribute "data-action".toList, t.getAttribute "data-med".toList)]
          else p.found }

/-- One character of input.  Unsupported: character references (`&`), comments and
declarations, self-closing tags, a `<` not followed by a tag name, U+0000, carriage return. -/
def step (p : HtmlParser) (c : Char) : Option HtmlParser :=
  if isUnmodelled c then none
  else
    match p.state with
    | .data =>
      if c = '<' then some { p with state := .tagOpen }
      else if c = '&' then none
      else some p
    | .tagOpen =>
      if c = '/' then some { p with state := .endTagOpen }
      else if c.isAlpha then some { p with state := .tagName ⟨false, [c.toLower], []⟩ }
      else none
    | .endTagOpen =>
      if c.isAlpha then some { p with state := .tagName ⟨true, [c.toLower], []⟩ } else none
    | .tagName t =>
      if isHtmlSpace c then some { p with state := .beforeAttrName t }
      else if c = '/' then none
      else if c = '>' then insertTag p t
      else some { p with state := .tagName { t with name := t.name ++ [c.toLower] } }
    | .beforeAttrName t =>
      if isHtmlSpace c then some p
      else if c = '/' then none
      else if c = '>' then insertTag p t
      else some { p with state := .attrName t [c.toLower] }
    | .attrName t n =>
      if isHtmlSpace c then some { p with state := .afterAttrName t n }
      else if c = '/' then none
      else if c = '>' then insertTag p (t.addAttr n [])
      else if c = '=' then some { p with state := .beforeAttrValue t n }
      else some { p with state := .attrName t (n ++ [c.toLower]) }
    | .afterAttrName t n =>
      if isHtmlSpace c then some p
      else if c = '/' then none
      else if c = '=' then some { p with state := .beforeAttrValue t n }
      else if c = '>' then insertTag p (t.addAttr n [])
      else some { p with state := .attrName (t.addAttr n []) [c.toLower] }
    | .beforeAttrValue t n =>
      if isHtmlSpace c then some p
      else if c = dquote then some { p with state := .attrValueDq t n [] }
      else if c = squote then some { p with state := .attrValueSq t n [] }
      else if c = '>' then insertTag p (t.addAttr n [])
      else if c = '&' then none
      else some { p with state := .attrValueUnq t n [c] }
    | .attrValueDq t n v =>
      if c = dquote then some { p with state := .afterAttrValueQ (t.addAttr n v) }
      else if c = '&' then none
      else some { p with state := .attrValueDq t n (v ++ [c]) }
    | .attrValueSq t n v =>
      if c = squote then some { p with state := .afterAttrValueQ (t.addAttr n v) }
      else if c = '&' then none
      else some { p with state := .attrValueSq t n (v ++ [c]) }
    | .attrValueUnq t n v =>
      if isHtmlSpace c then some { p with state := .beforeAttrName (t.addAttr n v) }
      else if c = '&' then none
      else if c = '>' then insertTag p (t.addAttr n v)
      else some { p with state := .attrValueUnq t n (v ++ [c]) }
    | .afterAttrValueQ t =>
      if isHtmlSpace c then some { p with state := .beforeAttrName t }
      else if c = '/' then none
      else if c = '>' then insertTag p t
      else some { p with state := .attrName t [c.toLower] }

/-- Feeds the characters to the parser, in order. -/
def run : HtmlParser → List Char → Option HtmlParser
  | p, [] => some p
  | p, c :: cs =>
    match step p c with
    | none => none
    | some q => run q cs

/-- The `data-action` and `data-med` of the `button.pa-btn` elements, in document order, of
the fragment `markup`; `none` when the markup leaves the modelled part of HTML or ends inside
a tag. -/
def parseButtons (markup : String) : Option (List (Option String × Option String)) :=
  match run { state := .data, stack := [], found := [] } markup.toList with
  | none => none
  | some p => if p.state = .data then some p.found else none

/-! ## The displayed surface -/

/-- An action control: its `dataset.action` and `dataset.med` (`none` when the attribute is
missing) and the number of click listeners registered on it. -/
structure Button where
  action : Option String
  med : Option String
  listeners : Nat
deriving DecidableEq, Repr

/-- A medication card (lines 73-87): the markup assigned to its `innerHTML` and the
`button.pa-btn` elements the parser made of it. -/
structure Card where
  innerHTML : String
  buttons : List Button
deriving DecidableEq, Repr

/-- Content of `#pa-medications`. -/
inductive MedsContent where
  /-- Nothing written yet -/
  | blank
  /-- The paragraph `No medications configured yet.` -/
  | noMedications
  /-- The element `div.pa-grid` with its cards -/
  | grid (cards : List Card)
deriving DecidableEq, Repr

/-- The skeleton written by `_render`, with the content of its three containers; `history` is
the markup assigned to the `innerHTML` of `#pa-history`. -/
structure Surface where
  logPathText : String
  logPathTitle : String
  medications : MedsContent
  history : String
deriving DecidableEq, Repr

/-- The buttons present in the medication area: what `grid.querySelectorAll('button.pa-btn')`
returns, the buttons of each card in card order. -/
def MedsContent.buttons : MedsContent → List Button
  | .blank => []
  | .noMedications => []
  | .grid cards => cards.flatMap Card.buttons

/-- Lines 75-86: the template literal assigned to `card.innerHTML`; each `${...}` is
interpolated as it is. -/
def cardMarkup (med : Entity) : String :=
  let ratio := orOpt med.attributes.taken_scheduled_ratio med.attributes.taken_scheduled_ratio
  let nextDose := orOpt med.attributes.next_dose_at med.attributes.next_dose_time
  let lastTaken := orOpt med.attributes.last_taken_at med.attributes.last_taken
  "\n            <div class=\"pa-row\"><strong>" ++ displayName med ++
    "</strong><span class=\"pa-badge\">" ++ med.state ++ "</span></div>" ++
  "\n            <div class=\"pa-row\"><span>Next</span><span>" ++ orElse nextDose "n/a" ++
    "</span></div>" ++
  "\n            <div class=\"pa-row\"><span>Last taken</span><span>" ++
    orElse lastTaken "n/a" ++ "</span></div>" ++
  "\n            <div class=\"pa-row\"><span>Doses today</span><span>" ++
    toString (doses med).length ++ "</span></div>" ++
  "\n            <div class=\"pa-row\"><span>Ratio</span><span>" ++ orElse ratio "0/0" ++
    "</span></div>" ++
  "\n            <div class=\"pa-actions\">" ++
  "\n              <button class=\"pa-btn\" data-action=\"take\" data-med=\"" ++ medId med ++
    "\">Mark taken</button>" ++
  "\n              <button class=\"pa-btn secondary\" data-action=\"snooze\" data-med=\"" ++
    medId med ++ "\">Snooze</button>" ++
  "\n              <button class=\"pa-btn secondary\" data-action=\"test\" data-med=\"" ++
    medId med ++ "\">Test notify</button>" ++
  "\n            </div>" ++
  "\n          "

/-- The host's own fragment parser followed by `querySelectorAll('button.pa-btn')`: the
`data-action` and `data-med` of each match. -/
abbrev HostParse := String → List (Option String × Option String)

/-- The `button.pa-btn` elements of a parsed fragment, as the code sees them; fresh elements
carry no listener.  Markup outside the modelled part of HTML is left to `hostParse`. -/
def querySelectorAll (hostParse : HostParse)
    (markup : String) : List Button :=
  let found :=
    match parseButtons markup with
    | some bs => bs
    | none => hostParse markup
  found.map (fun b => { action := b.1, med := b.2, listeners := 0 })

/-- Lines 73-87: the card built for one medication. -/
def card (hostParse : HostParse) (med : Entity) : Card :=
  { innerHTML := cardMarkup med, buttons := querySelectorAll hostParse (cardMarkup med) }

/-- Line 90: `btn.addEventListener('click', (ev) => this._handleAction(ev))`. -/
def addEventListener (btn : Button) : Button := { btn with listeners := btn.listeners + 1 }

/-- Lines 89-91: every `button.pa-btn` of the grid gets one more listener. -/
def attachHandlers (cards : List Card) : List Card :=
  cards.map (fun c => { c with buttons := c.buttons.map addEventListener })

/-- Line 105: the markup of one history row. -/
def rowMarkup (row : HistoryRow) : String :=
  "<tr><td>" ++ row.name ++ "</td><td>" ++ row.timestamp ++ "</td></tr>"

/-- Lines 105-107: the markup of the table for the rows, in their order. -/
def tableMarkup (rows : List HistoryRow) : String :=
  "<table><thead><tr><th>Medication</th><th>Time</th></tr></thead><tbody>" ++
    String.join (rows.map rowMarkup) ++ "</tbody></table>"

/-! ## The controller -/

/-- The element's own state: the fields `_hass`, `_panel`, `_rendered`, its `innerHTML`
(`none` while empty) and a counter of the runs of `_render`. -/
structure Panel where
  _hass : Option Hass
  _panel : Option PanelInfo
  _rendered : Bool
  innerHTML : Option Surface
  renderCalls : Nat

/-- A freshly created element: no field set, nothing drawn. -/
def mounted : Panel :=
  { _hass := none, _panel := none, _rendered := false, innerHTML := none, renderCalls := 0 }

/-- The markup of lines 16-42: three empty containers. -/
def skeleton : Surface :=
  { logPathText := "", logPathTitle := "", medications := .blank, history := "" }

/-- Lines 14-43. -/
def _render (p : Panel) : Panel :=
  { p with _rendered := true, innerHTML := some skeleton, renderCalls := p.renderCalls + 1 }

/-- Line 56: `this._panel?.config?.log_path`. -/
def logPath (p : Panel) : Option String :=
  match p._panel with
  | none => none
  | some info =>
    match info.config with
    | none => none
    | some c => c.log_path

/-- Lines 61-93: the new content of `#pa-medications`. -/
def medsContent (hostParse : HostParse)
    (ms : List Entity) : MedsContent :=
  if ms.length = 0 then .noMedications else .grid (attachHandlers (ms.map (card hostParse)))

/-- Lines 95-109: the markup assigned to the `innerHTML` of `#pa-history`. -/
def historyContent (localeCompare : String → String → Int) (ms : List Entity) : String :=
  if (allDoses ms).length = 0 then "<p>No doses recorded today.</p>"
  else tableMarkup (sortedDoses localeCompare ms)

/-- Lines 45-110.  The three `querySelector` calls find their container exactly when the
skeleton is present. -/
def _update (localeCompare : String → String → Int)
    (hostParse : HostParse) (p : Panel) : Panel :=
  match p._hass with
  | none => p
  | some hass =>
    match p.innerHTML with
    | none => p
    | some _ =>
      let ms := meds localeCompare hass
      let path := logPath p
      let surface : Surface :=
        { logPathText := if truthy path then "Log: " ++ orElse path "" else ""
          logPathTitle := "CSV history location"
          medications := medsContent hostParse ms
          history := historyContent localeCompare ms }
      { p with innerHTML := some surface }

/-- Lines 2-8: the setter `hass`; `none` is an absent (undefined) snapshot. -/
def setHass (localeCompare : String → String → Int)
    (hostParse : HostParse) (p : Panel)
    (hass : Option Hass) : Panel :=
  let p1 := { p with _hass := hass }
  let p2 := if !p1._rendered then _render p1 else p1
  _update localeCompare hostParse p2

/-- Lines 10-12: the setter `panel`. -/
def setPanel (p : Panel) (panel : Option PanelInfo) : Panel := { p with _panel := panel }

/-- Lines 112-125.  Returns the service calls issued, in order, and the outcome of the
handler: `.error` when the awaited call rejects. -/
def _handleAction (p : Panel) (button : Button) : List ServiceCall × Except String Unit :=
  match p._hass with
  | none => ([], .ok ())
  | some hass =>
    if !truthy button.med || !truthy button.action then ([], .ok ())
    else
      let medId := orElse button.med ""
      let action := orElse button.action ""
      if action = "take" then
        let c : ServiceCall :=
          { domain := "pill_assistant", service := "take_medication", medication_id := medId }
        ([c], hass.callService c)
      else if action = "snooze" then
        let c : ServiceCall :=
          { domain := "pill_assistant", service := "snooze_medication", medication_id := medId }
        ([c], hass.callService c)
      else if action = "test" then
        let c : ServiceCall :=
          { domain := "pill_assistant", service := "test_notification", medication_id := medId }
        ([c], hass.callService c)
      else ([], .ok ())

/-- A click on a button runs every listener registered on it; each listener is
`(ev) => this._handleAction(ev)` with the button as `ev.currentTarget`.  Returns all the
service calls issued. -/
def click (p : Panel) (button : Button) : List ServiceCall :=
  (List.replicate button.listeners (_handleAction p button).1).flatten

/-- The markup in the history area of the panel. -/
def Panel.history (p : Panel) : String :=
  match p.innerHTML with
  | none => ""
  | some s => s.history

/-- The action controls present on the panel. -/
def Panel.buttons (p : Panel) : List Button :=
  match p.innerHTML with
  | none => []
  | some s => s.medications.buttons


/-- Characters with no meaning in a text or a double-quoted attribute value. -/
def plainChar (c : Char) : Bool := !(c == '<' || c == '&' || c == dquote || isUnmodelled c)

/-- A string free of markup characters. -/
def plain (s : String) : Bool := s.toList.all plainChar

/-- The strings interpolated into the card template (the dose count, a number, apart). -/
def interpolated (med : Entity) : List String :=
  [displayName med, med.state,
    orElse (orOpt med.attributes.next_dose_at med.attributes.next_dose_time) "n/a",
    orElse (orOpt med.attributes.last_taken_at med.attributes.last_taken) "n/a",
    orElse (orOpt med.attributes.taken_scheduled_ratio med.attributes.taken_scheduled_ratio) "0/0",
    medId med]

/-- Every string interpolated into the card of the entity is free of markup characters. -/
def plainCard (med : Entity) : Bool := (interpolated med).all plain

/-! ## Concrete data used to exercise the results -/

/-- Attributes of an entity that carries none of the recognised attributes. -/
def noAttributes : Attributes :=
  { friendly_name := none, medication_id := none, doses_today := none,
    taken_scheduled_ratio := none, next_dose_at := none, next_dose_time := none,
    last_taken_at := none, last_taken := none }

/-- The entity of Scenario B: `sensor.pa_aspirin`, one dose, no `Medication ID`. -/
def aspirin : Entity :=
  { entity_id := "sensor.pa_aspirin", state := "scheduled",
    attributes := { noAttributes with
      friendly_name := some "Aspirin", doses_today := some ["2024-01-01T08:00:00"] } }

/-- A medication sensor without `friendly_name`, with one later dose. -/
def unnamed : Entity :=
  { entity_id := "sensor.pa_a", state := "due",
    attributes := { noAttributes with doses_today := some ["2024-01-01T09:00:00"] } }

/-- An entity that is not a medication sensor. -/
def sun : Entity :=
  { entity_id := "sun.sun", state := "above_horizon",
    attributes := { noAttributes with friendly_name := some "Sun" } }

/-- A host whose `callService` always rejects. -/
def rejecting : ServiceCall → Except String Unit := fun _ => .error "rejected"

/-- A snapshot holding `aspirin`, `sun` and `unnamed`, in this order. -/
def sampleHass : Hass :=
  { states := [("sensor.pa_aspirin", aspirin), ("sun.sun", sun), ("sensor.pa_a", unnamed)],
    callService := rejecting }

/-- A medication sensor that carries no attribute at all. -/
def bare : Entity :=
  { entity_id := "sensor.pa_bare", state := "unknown", attributes := noAttributes }

/-- A medication sensor whose `Medication ID` is a single double quote. -/
def quoted : Entity :=
  { entity_id := "sensor.pa_q", state := "due",
    attributes := { noAttributes with
      friendly_name := some "Quote", medication_id := some (String.singleton dquote) } }

/-- A snapshot holding `quoted` only. -/
def quoteHass : Hass := { states := [("sensor.pa_q", quoted)], callService := rejecting }

/-- A medication sensor with two doses written on a twelve-hour clock. -/
def clock : Entity :=
  { entity_id := "sensor.pa_clock", state := "taken",
    attributes := { noAttributes with
      friendly_name := some "Clock", doses_today := some ["9:00 PM", "9:00 am"] } }

/-- A snapshot holding `clock` only. -/
def clockHass : Hass := { states := [("sensor.pa_clock", clock)], callService := rejecting }

/-- A stand-in for the host's parser that finds no button.  The markup of the examples lies
in the modelled part of HTML, so it is never consulted there. -/
def noHostParse : HostParse := fun _ => []

/-- A panel that has received `sampleHass`, whose host rejects every call. -/
def livePanel : Panel := setHass codePointCompare noHostParse mounted (some sampleHass)

set_option maxRecDepth 100000

/-! ## Helper lemmas -/

theorem strOr_empty (s : String) : strOr s "" = s := by
  unfold strOr
  split <;> simp_all

theorem orElse_ne_empty (v : Option String) (d : String) (hd : d ≠ "") : orElse v d ≠ "" := by
  unfold orElse strOr
  cases v with
  | none => simpa using hd
  | some s =>
    by_cases hs : s = ""
    · simpa [hs] using hd
    · simp [hs]

theorem startsWith_ne_empty (s : String) (h : startsWith s "sensor.pa_" = true) : s ≠ "" := by
  rintro rfl
  revert h
  decide

theorem sort_perm {α : Type} (cmp : α → α → Int) (xs : List α) : (sort cmp xs).Perm xs :=
  List.perm_insertionSort _ xs

theorem mem_meds (lc : String → String → Int) (hass : Hass) (e : Entity) :
    e ∈ meds lc hass ↔
      e ∈ Object.values hass.states ∧ startsWith e.entity_id "sensor.pa_" = true := by
  unfold meds
  rw [(sort_perm _ _).mem_iff, List.mem_filter]

theorem consistent_total {lc : String → String → Int} (h : Consistent lc) (a b : String) :
    lc a b ≤ 0 ∨ lc b a ≤ 0 := by
  by_cases hab : lc a b ≤ 0
  · exact Or.inl hab
  · right
    have : 0 < lc a b := by omega
    have := (h.1 b a).2 this
    omega

theorem consistent_refl {lc : String → String → Int} (h : Consistent lc) (a : String) :
    lc a a = 0 := by
  have h1 := h.1 a a
  by_contra hne
  rcases lt_or_gt_of_ne hne with hlt | hgt
  · have := h1.1 hlt
    omega
  · have := h1.2 hgt
    omega

theorem sort_sorted {α : Type} (key : α → String) {lc : String → String → Int}
    (h : Consistent lc) (xs : List α) :
    (sort (fun a b => lc (key a) (key b)) xs).Pairwise (fun a b => lc (key a) (key b) ≤ 0) := by
  haveI : IsTotal α (fun a b => lc (key a) (key b) ≤ 0) :=
    ⟨fun a b => consistent_total h (key a) (key b)⟩
  haveI : IsTrans α (fun a b => lc (key a) (key b) ≤ 0) :=
    ⟨fun a b c hab hbc => h.2 (key a) (key b) (key c) hab hbc⟩
  exact List.sorted_insertionSort (fun a b => lc (key a) (key b) ≤ 0) xs

theorem sort_stable {α : Type} (cmp : α → α → Int) {a b : α} {xs : List α}
    (hab : cmp a b ≤ 0) (h : List.Sublist [a, b] xs) : List.Sublist [a, b] (sort cmp xs) :=
  List.pair_sublist_insertionSort (r := fun a b => cmp a b ≤ 0) hab h

theorem compareChars_antisymm : ∀ (as bs : List Char),
    compareChars as bs < 0 ↔ 0 < compareChars bs as
  | [], [] => by simp [compareChars]
  | [], _ :: _ => by simp [compareChars]
  | _ :: _, [] => by simp [compareChars]
  | a :: as, b :: bs => by
    have ih := compareChars_antisymm as bs
    unfold compareChars
    by_cases h1 : a.toNat < b.toNat
    · have h2 : ¬ b.toNat < a.toNat := by omega
      simp [h1, h2]
    · by_cases h2 : b.toNat < a.toNat
      · simp [h1, h2]
      · simpa [h1, h2] using ih

theorem compareChars_trans : ∀ (as bs cs : List Char),
    compareChars as bs ≤ 0 → compareChars bs cs ≤ 0 → compareChars as cs ≤ 0
  | [], _, [] => by simp [compareChars]
  | [], _, _ :: _ => by simp [compareChars]
  | _ :: _, [], _ => by simp [compareChars]
  | _ :: _, _ :: _, [] => by simp [compareChars]
  | a :: as, b :: bs, c :: cs => by
    have ih := compareChars_trans as bs cs
    unfold compareChars
    intro hab hbc
    by_cases h1 : a.toNat < b.toNat
    · by_cases h2 : b.toNat < c.toNat
      · have : a.toNat < c.toNat := by omega
        simp [this]
      · by_cases h3 : c.toNat < b.toNat
        · simp [h2, h3] at hbc
        · have : a.toNat < c.toNat := by omega
          simp [this]
    · by_cases h1' : b.toNat < a.toNat
      · simp [h1, h1'] at hab
      · simp only [h1, h1', if_false] at hab
        by_cases h2 : b.toNat < c.toNat
        · have : a.toNat < c.toNat := by omega
          simp [this]
        · by_cases h3 : c.toNat < b.toNat
          · simp [h2, h3] at hbc
          · simp only [h2, h3, if_false] at hbc
            have e1 : ¬ a.toNat < c.toNat := by omega
            have e2 : ¬ c.toNat < a.toNat := by omega
            simpa [e1, e2] using ih hab hbc

theorem codePointCompare_consistent : Consistent codePointCompare :=
  ⟨fun a b => compareChars_antisymm a.toList b.toList,
   fun a b c => compareChars_trans a.toList b.toList c.toList⟩

theorem caseFoldCompare_consistent : Consistent caseFoldCompare :=
  ⟨fun a b => compareChars_antisymm (a.toList.map Char.toLower) (b.toList.map Char.toLower),
   fun a b c => compareChars_trans (a.toList.map Char.toLower) (b.toList.map Char.toLower)
     (c.toList.map Char.toLower)⟩

/-! ## The parser on the card template -/

theorem run_append_of (p q : HtmlParser) (a b : List Char)
    (h : run p a = some q) : run p (a ++ b) = run q b := by
  induction a generalizing p with
  | nil =>
    simp only [run, Option.some.injEq] at h
    subst h
    rfl
  | cons c cs ih =>
    simp only [List.cons_append, run] at h ⊢
    cases hs : step p c with
    | none => simp [hs] at h
    | some r =>
      simp only [hs] at h ⊢
      exact ih r h

theorem step_data_plain (st : List (List Char)) (f : List (Option String × Option String))
    (c : Char) (hc : plainChar c = true) : step ⟨.data, st, f⟩ c = some ⟨.data, st, f⟩ := by
  simp only [plainChar, Bool.not_eq_true', Bool.or_eq_false_iff, beq_eq_false_iff_ne, ne_eq] at hc
  obtain ⟨⟨⟨h1, h2⟩, _⟩, h4⟩ := hc
  simp [step, h4, h1, h2]

theorem run_data_plain (st : List (List Char)) (f : List (Option String × Option String)) :
    ∀ s : List Char, (∀ c ∈ s, plainChar c = true) → run ⟨.data, st, f⟩ s = some ⟨.data, st, f⟩
  | [], _ => rfl
  | c :: cs, h => by
    simp only [run, step_data_plain st f c (h c (List.mem_cons_self _ _))]
    exact run_data_plain st f cs (fun x hx => h x (List.mem_cons_of_mem _ hx))

theorem step_attr_plain (t : HtmlTag) (n v : List Char) (st : List (List Char))
    (f : List (Option String × Option String)) (c : Char) (hc : plainChar c = true) :
    step ⟨.attrValueDq t n v, st, f⟩ c = some ⟨.attrValueDq t n (v ++ [c]), st, f⟩ := by
  simp only [plainChar, Bool.not_eq_true', Bool.or_eq_false_iff, beq_eq_false_iff_ne, ne_eq] at hc
  obtain ⟨⟨⟨_, h2⟩, h3⟩, h4⟩ := hc
  simp [step, h4, h2, h3]

theorem run_attr_plain (t : HtmlTag) (n : List Char) (st : List (List Char))
    (f : List (Option String × Option String)) :
    ∀ (s v : List Char), (∀ c ∈ s, plainChar c = true) →
      run ⟨.attrValueDq t n v, st, f⟩ s = some ⟨.attrValueDq t n (v ++ s), st, f⟩
  | [], v, _ => by simp [run]
  | c :: cs, v, h => by
    simp only [run, step_attr_plain t n v st f c (h c (List.mem_cons_self _ _))]
    rw [run_attr_plain t n st f cs (v ++ [c]) (fun x hx => h x (List.mem_cons_of_mem _ hx))]
    simp

theorem plainChar_digitChar (d : Nat) (h : d < 10) : plainChar (Nat.digitChar d) = true := by
  interval_cases d <;> decide

theorem plain_toDigitsCore : ∀ (fuel n : Nat) (ds : List Char),
    (∀ c ∈ ds, plainChar c = true) → ∀ c ∈ Nat.toDigitsCore 10 fuel n ds, plainChar c = true
  | 0, _, ds, h => by simpa [Nat.toDigitsCore] using h
  | fuel + 1, n, ds, h => by
    have hd : ∀ c ∈ Nat.digitChar (n % 10) :: ds, plainChar c = true := by
      intro c hc
      rcases List.mem_cons.mp hc with rfl | hc
      · exact plainChar_digitChar _ (Nat.mod_lt _ (by decide))
      · exact h c hc
    unfold Nat.toDigitsCore
    by_cases h0 : n / 10 = 0
    · simpa [h0] using hd
    · simp only [h0, if_false]
      exact plain_toDigitsCore fuel (n / 10) _ hd

theorem plain_toString (n : Nat) : ∀ c ∈ (toString n).data, plainChar c = true := by
  have : (toString n).data = Nat.toDigits 10 n := rfl
  rw [this]
  exact plain_toDigitsCore _ _ [] (by simp)

theorem plain_mem {s : String} (h : plain s = true) : ∀ c ∈ s.data, plainChar c = true := by
  simpa [plain, String.toList] using h

theorem run_cardMarkup (med : Entity) (hp : plainCard med = true) :
    run ⟨.data, [], []⟩ (cardMarkup med).toList =
      some ⟨.data, [], [(some "take", some (medId med)), (some "snooze", some (medId med)),
        (some "test", some (medId med))]⟩ := by
  simp only [plainCard, interpolated, List.all_cons, List.all_nil, Bool.and_true,
    Bool.and_eq_true] at hp
  obtain ⟨h1, h2, h3, h4, h5, h6⟩ := hp
  replace h1 := plain_mem h1
  replace h2 := plain_mem h2
  replace h3 := plain_mem h3
  replace h4 := plain_mem h4
  replace h5 := plain_mem h5
  replace h6 := plain_mem h6
  simp only [cardMarkup, String.toList, String.data_append, List.append_assoc]
  refine (run_append_of _ ⟨.data, ["strong".toList, "div".toList], []⟩ _ _ ?_).trans ?_
  · rfl
  rw [run_append_of _ _ _ _ (run_data_plain _ _ _ h1)]
  refine (run_append_of _ ⟨.data, ["span".toList, "div".toList], []⟩ _ _ ?_).trans ?_
  · rfl
  rw [run_append_of _ _ _ _ (run_data_plain _ _ _ h2)]
  refine (run_append_of _ ⟨.data, [], []⟩ _ _ ?_).trans ?_
  · rfl
  refine (run_append_of _ ⟨.data, ["span".toList, "div".toList], []⟩ _ _ ?_).trans ?_
  · rfl
  rw [run_append_of _ _ _ _ (run_data_plain _ _ _ h3)]
  refine (run_append_of _ ⟨.data, [], []⟩ _ _ ?_).trans ?_
  · rfl
  refine (run_append_of _ ⟨.data, ["span".toList, "div".toList], []⟩ _ _ ?_).trans ?_
  · rfl
  rw [run_append_of _ _ _ _ (run_data_plain _ _ _ h4)]
  refine (run_append_of _ ⟨.data, [], []⟩ _ _ ?_).trans ?_
  · rfl
  refine (run_append_of _ ⟨.data, ["span".toList, "div".toList], []⟩ _ _ ?_).trans ?_
  · rfl
  rw [run_append_of _ _ _ _ (run_data_plain _ _ _ (plain_toString _))]
  refine (run_append_of _ ⟨.data, [], []⟩ _ _ ?_).trans ?_
  · rfl
  refine (run_append_of _ ⟨.data, ["span".toList, "div".toList], []⟩ _ _ ?_).trans ?_
  · rfl
  rw [run_append_of _ _ _ _ (run_data_plain _ _ _ h5)]
  refine (run_append_of _ ⟨.data, [], []⟩ _ _ ?_).trans ?_
  · rfl
  refine (run_append_of _ ⟨.data, ["div".toList], []⟩ _ _ ?_).trans ?_
  · rfl
  refine (run_append_of _ ⟨.attrValueDq ⟨false, "button".toList, [("class".toList, "pa-btn".toList),
      ("data-action".toList, "take".toList)]⟩ "data-med".toList [], ["div".toList],
      []⟩ _ _ ?_).trans ?_
  · rfl
  rw [run_append_of _ _ _ _ (run_attr_plain _ _ _ _ _ _ h6)]
  refine (run_append_of _ ⟨.data, ["div".toList], [(some "take", some (medId med))]⟩ _ _ ?_).trans ?_
  · rfl
  refine (run_append_of _ ⟨.attrValueDq ⟨false, "button".toList, [("class".toList, "pa-btn secondary".toList),
      ("data-action".toList, "snooze".toList)]⟩ "data-med".toList [], ["div".toList],
      [(some "take", some (medId med))]⟩ _ _ ?_).trans ?_
  · rfl
  rw [run_append_of _ _ _ _ (run_attr_plain _ _ _ _ _ _ h6)]
  refine (run_append_of _ ⟨.data, ["div".toList], [(some "take", some (medId med)), (some "snooze", some (medId med))]⟩ _ _ ?_).trans ?_
  · rfl
  refine (run_append_of _ ⟨.attrValueDq ⟨false, "button".toList, [("class".toList, "pa-btn secondary".toList),
      ("data-action".toList, "test".toList)]⟩ "data-med".toList [], ["div".toList],
      [(some "take", some (medId med)), (some "snooze", some (medId med))]⟩ _ _ ?_).trans ?_
  · rfl
  rw [run_append_of _ _ _ _ (run_attr_plain _ _ _ _ _ _ h6)]
  refine (run_append_of _ ⟨.data, ["div".toList], [(some "take", some (medId med)), (some "snooze", some (medId med)), (some "test", some (medId med))]⟩ _ _ ?_).trans ?_
  · rfl
  refine (run_append_of _ ⟨.data, [], [(some "take", some (medId med)), (some "snooze", some (medId med)), (some "test", some (medId med))]⟩ _ _ ?_).trans ?_
  · rfl
  rfl

theorem parseButtons_cardMarkup (med : Entity) (hp : plainCard med = true) :
    parseButtons (cardMarkup med) =
      some [(some "take", some (medId med)), (some "snooze", some (medId med)),
        (some "test", some (medId med))] := by
  unfold parseButtons
  rw [run_cardMarkup med hp]
  rfl

/-! ## Selection and fallbacks -/

/-- C1: the medication list holds each entity whose `entity_id` starts with `sensor.pa_` exactly
as often as the snapshot does, and holds no other entity. -/
theorem meds_count (lc : String → String → Int) (hass : Hass) (e : Entity) :
    (meds lc hass).count e =
      if startsWith e.entity_id "sensor.pa_" = true then (Object.values hass.states).count e
      else 0 := by
  unfold meds
  rw [(sort_perm _ _).count_eq]
  split
  · next h => exact List.count_filter h
  · next h =>
    apply List.count_eq_zero.mpr
    intro hmem
    exact h (List.mem_filter.mp hmem).2

theorem card_buttons_plain (html : HostParse) (e : Entity) (hp : plainCard e = true) :
    (card html e).buttons =
      [{ action := some "take", med := some (medId e), listeners := 0 },
        { action := some "snooze", med := some (medId e), listeners := 0 },
        { action := some "test", med := some (medId e), listeners := 0 }] := by
  simp [card, querySelectorAll, parseButtons_cardMarkup e hp]

/-- The claim C5 fails as stated.  The sensor `quoted` is selected and its `Medication ID` is
a double quote, so `attributes['Medication ID'] || entity_id` is non-empty; interpolated
unescaped, it closes the attribute at once (`data-med="""`), and the id tagged on each of the
three controls is the empty string. -/
theorem medId_tag_counterexample :
    quoted ∈ meds codePointCompare quoteHass ∧ medId quoted = String.singleton dquote ∧
      medId quoted ≠ "" ∧
      parseButtons (cardMarkup quoted) =
        some [(some "take", some ""), (some "snooze", some ""), (some "test", some "")] ∧
      (card noHostParse quoted).buttons.map Button.med = [some "", some "", some ""] := by
  decide

/-- C5 (amended): for a selected entity the value `attributes['Medication ID'] || entity_id`,
which `_update` interpolates into the `data-med` attribute of the controls, is a non-empty
string whatever the attributes are; when the strings interpolated into the card hold no markup
character, the card has exactly its three controls and the id tagged on each is that value. -/
theorem medId_nonempty (lc : String → String → Int) (html : HostParse) (hass : Hass)
    (e : Entity) (h : e ∈ meds lc hass) :
    medId e ≠ "" ∧
      (plainCard e = true →
        (card html e).buttons =
          [{ action := some "take", med := some (medId e), listeners := 0 },
            { action := some "snooze", med := some (medId e), listeners := 0 },
            { action := some "test", med := some (medId e), listeners := 0 }]) :=
  ⟨orElse_ne_empty _ _ (startsWith_ne_empty _ ((mem_meds lc hass e).mp h).2),
    card_buttons_plain html e⟩

theorem medId_nonempty_witness :
    aspirin ∈ meds codePointCompare sampleHass ∧ plainCard aspirin = true ∧
      medId aspirin ≠ "" ∧
      (card noHostParse aspirin).buttons =
        [{ action := some "take", med := some "sensor.pa_aspirin", listeners := 0 },
          { action := some "snooze", med := some "sensor.pa_aspirin", listeners := 0 },
          { action := some "test", med := some "sensor.pa_aspirin", listeners := 0 }] :=
  ⟨by decide, by decide,
    (medId_nonempty codePointCompare noHostParse sampleHass aspirin (by decide)).1,
    (medId_nonempty codePointCompare noHostParse sampleHass aspirin (by decide)).2 (by decide)⟩

/-- C6: without a `Medication ID` attribute the medication id is the raw `entity_id` (and it
is the id tagged on the controls when the strings interpolated into the card hold no markup
character); without a `Doses today` attribute the dose list is the empty list, the count
written on the card is `0` and the entity contributes no history row. -/
theorem fallbacks (html : HostParse) (e : Entity) :
    (e.attributes.medication_id = none →
      medId e = e.entity_id ∧
        (plainCard e = true → ∀ b ∈ (card html e).buttons, b.med = some e.entity_id)) ∧
    (e.attributes.doses_today = none →
      doses e = [] ∧ toString (doses e).length = "0" ∧
        ∀ xs ys : List Entity, allDoses (xs ++ e :: ys) = allDoses (xs ++ ys)) := by
  constructor
  · intro h
    have hm : medId e = e.entity_id := by simp [medId, orElse, h]
    refine ⟨hm, ?_⟩
    intro hp b hb
    rw [card_buttons_plain html e hp] at hb
    simp only [List.mem_cons, List.mem_singleton, List.not_mem_nil, or_false] at hb
    rcases hb with rfl | rfl | rfl <;> simp [hm]
  · intro h
    have hd : doses e = [] := by simp [doses, h]
    refine ⟨hd, by rw [hd]; rfl, ?_⟩
    intro xs ys
    simp [allDoses, List.flatMap_append, hd]

theorem fallbacks_witness :
    (bare.attributes.medication_id = none ∧ bare.attributes.doses_today = none) ∧
      (medId bare = "sensor.pa_bare" ∧
        ∀ b ∈ (card noHostParse bare).buttons, b.med = some "sensor.pa_bare") ∧
      (doses bare = [] ∧ toString (doses bare).length = "0" ∧
        ∀ xs ys : List Entity, allDoses (xs ++ bare :: ys) = allDoses (xs ++ ys)) :=
  ⟨⟨rfl, rfl⟩,
    ⟨((fallbacks noHostParse bare).1 rfl).1, ((fallbacks noHostParse bare).1 rfl).2 (by decide)⟩,
    (fallbacks noHostParse bare).2 rfl⟩

/-! ## Action dispatch -/

/-- C2: with a live connection and a non-empty medication id `m`, a control whose action kind
is `take`, `snooze` or `test` makes `_handleAction` issue exactly one service call, namely
`take_medication`, `snooze_medication` or `test_notification` of domain `pill_assistant` with
`medication_id = m`; the handler's outcome is the outcome of that call. -/
theorem handleAction_known (p : Panel) (hass : Hass) (b : Button) (m : String)
    (hp : p._hass = some hass) (hm : m ≠ "") (hb : b.med = some m) :
    (b.action = some "take" →
      _handleAction p b =
        ([⟨"pill_assistant", "take_medication", m⟩],
          hass.callService ⟨"pill_assistant", "take_medication", m⟩)) ∧
    (b.action = some "snooze" →
      _handleAction p b =
        ([⟨"pill_assistant", "snooze_medication", m⟩],
          hass.callService ⟨"pill_assistant", "snooze_medication", m⟩)) ∧
    (b.action = some "test" →
      _handleAction p b =
        ([⟨"pill_assistant", "test_notification", m⟩],
          hass.callService ⟨"pill_assistant", "test_notification", m⟩)) := by
  refine ⟨?_, ?_, ?_⟩ <;> intro ha <;>
    simp [_handleAction, hp, hb, ha, truthy, orElse, strOr, hm]

theorem handleAction_known_witness :
    _handleAction livePanel ⟨some "take", some "M1", 1⟩ =
        ([⟨"pill_assistant", "take_medication", "M1"⟩], .error "rejected") ∧
      _handleAction livePanel ⟨some "snooze", some "M1", 1⟩ =
        ([⟨"pill_assistant", "snooze_medication", "M1"⟩], .error "rejected") ∧
      _handleAction livePanel ⟨some "test", some "M1", 1⟩ =
        ([⟨"pill_assistant", "test_notification", "M1"⟩], .error "rejected") :=
  ⟨(handleAction_known livePanel sampleHass ⟨some "take", some "M1", 1⟩ "M1" rfl
      (by decide) rfl).1 rfl,
   (handleAction_known livePanel sampleHass ⟨some "snooze", some "M1", 1⟩ "M1" rfl
      (by decide) rfl).2.1 rfl,
   (handleAction_known livePanel sampleHass ⟨some "test", some "M1", 1⟩ "M1" rfl
      (by decide) rfl).2.2 rfl⟩

/-- C7: `_handleAction` issues no service call and completes without error when the panel has
no connection, when the control's medication id is absent or empty, when its action kind is
absent or empty, or when its action kind is none of `take`, `snooze`, `test`; this holds
whatever the host's `callService` would do. -/
theorem handleAction_silent (p : Panel) (b : Button)
    (h : p._hass = none ∨ b.med = none ∨ b.med = some "" ∨ b.action = none ∨
      b.action = some "" ∨
      (b.action ≠ some "take" ∧ b.action ≠ some "snooze" ∧ b.action ≠ some "test")) :
    _handleAction p b = ([], .ok ()) := by
  unfold _handleAction
  cases hp : p._hass with
  | none => rfl
  | some hass =>
    rw [hp] at h
    rcases h with h | h | h | h | h | ⟨h1, h2, h3⟩
    · cases h
    · simp [h, truthy]
    · simp [h, truthy]
    · simp [h, truthy]
    · simp [h, truthy]
    · cases ha : b.action with
      | none => simp [truthy]
      | some a =>
        rw [ha] at h1 h2 h3
        have e1 : a ≠ "take" := fun e => h1 (by rw [e])
        have e2 : a ≠ "snooze" := fun e => h2 (by rw [e])
        have e3 : a ≠ "test" := fun e => h3 (by rw [e])
        by_cases hm : truthy b.med = true
        · by_cases hs : a = ""
          · simp [hs, truthy]
          · simp [hm, truthy, orElse, strOr, hs, e1, e2, e3]
        · simp [hm]

theorem handleAction_silent_witness :
    _handleAction livePanel ⟨some "delete", some "M1", 1⟩ = ([], .ok ()) ∧
      _handleAction livePanel ⟨some "take", some "", 1⟩ = ([], .ok ()) ∧
      _handleAction livePanel ⟨none, some "M1", 1⟩ = ([], .ok ()) ∧
      _handleAction { livePanel with _hass := none } ⟨some "take", some "M1", 1⟩ = ([], .ok ()) :=
  ⟨handleAction_silent livePanel ⟨some "delete", some "M1", 1⟩
      (Or.inr (Or.inr (Or.inr (Or.inr (Or.inr ⟨by decide, by decide, by decide⟩))))),
   handleAction_silent livePanel ⟨some "take", some "", 1⟩ (Or.inr (Or.inr (Or.inl rfl))),
   handleAction_silent livePanel ⟨none, some "M1", 1⟩ (Or.inr (Or.inr (Or.inr (Or.inl rfl)))),
   handleAction_silent { livePanel with _hass := none } ⟨some "take", some "M1", 1⟩ (Or.inl rfl)⟩

/-! ## Ordering of the medication list -/

theorem pair_sublist_or {α : Type} {a b : α} (hne : a ≠ b) :
    ∀ {l : List α}, a ∈ l → b ∈ l → List.Sublist [a, b] l ∨ List.Sublist [b, a] l
  | [], ha, _ => by cases ha
  | x :: xs, ha, hb => by
    by_cases hax : a = x
    · subst hax
      have hb' : b ∈ xs := by
        rcases List.mem_cons.mp hb with h | h
        · exact absurd h.symm hne
        · exact h
      exact Or.inl (List.Sublist.cons₂ _ (List.singleton_sublist.mpr hb'))
    · have ha' : a ∈ xs := by
        rcases List.mem_cons.mp ha with h | h
        · exact absurd h hax
        · exact h
      by_cases hbx : b = x
      · subst hbx
        exact Or.inr (List.Sublist.cons₂ _ (List.singleton_sublist.mpr ha'))
      · have hb' : b ∈ xs := by
          rcases List.mem_cons.mp hb with h | h
          · exact absurd h hbx
          · exact h
        rcases pair_sublist_or hne ha' hb' with h | h
        · exact Or.inl (List.Sublist.cons _ h)
        · exact Or.inr (List.Sublist.cons _ h)

theorem meds_sorted {lc : String → String → Int} (hlc : Consistent lc) (hass : Hass)
    {A B : Entity} (h : List.Sublist [A, B] (meds lc hass)) : lc (sortKey A) (sortKey B) ≤ 0 :=
  List.pairwise_iff_forall_sublist.mp (sort_sorted sortKey hlc _) h

/-- The claim C3 fails as stated.  In `sampleHass` the sensor `sensor.pa_a` has no
`friendly_name`: it is displayed under its identifier but sorted under the empty string, so it
is listed before `Aspirin` although `"Aspirin"` compares before `"sensor.pa_a"`. -/
theorem displayName_order_counterexample :
    meds codePointCompare sampleHass = [unnamed, aspirin] ∧
      displayName unnamed = "sensor.pa_a" ∧ displayName aspirin = "Aspirin" ∧
      codePointCompare (displayName aspirin) (displayName unnamed) < 0 ∧
      ¬ List.Sublist [aspirin, unnamed] (meds codePointCompare sampleHass) := by
  decide

/-- C3 (amended): the medication list is ordered by the key `friendly_name || ''`.  For two
records `A`, `B`: if `A` precedes `B` then the key of `A` does not compare after the key of `B`;
if both are selected and the key of `A` compares strictly before the key of `B` then `A`
precedes `B` and `B` does not precede `A`; if the keys compare equal and `A` precedes `B` among
the selected entities of the snapshot then `A` precedes `B` in the list.  For a record with a
non-empty `friendly_name` the key is its display name. -/
theorem meds_order (lc : String → String → Int) (hlc : Consistent lc) (hass : Hass)
    (A B : Entity) :
    (List.Sublist [A, B] (meds lc hass) → lc (sortKey A) (sortKey B) ≤ 0) ∧
    (A ∈ meds lc hass → B ∈ meds lc hass → lc (sortKey A) (sortKey B) < 0 →
      List.Sublist [A, B] (meds lc hass) ∧ ¬ List.Sublist [B, A] (meds lc hass)) ∧
    (lc (sortKey A) (sortKey B) = 0 →
      List.Sublist [A, B]
        ((Object.values hass.states).filter (fun st => startsWith st.entity_id "sensor.pa_")) →
      List.Sublist [A, B] (meds lc hass)) ∧
    (truthy A.attributes.friendly_name = true → sortKey A = displayName A) := by
  refine ⟨meds_sorted hlc hass, ?_, ?_, ?_⟩
  · intro hA hB hlt
    have hnot : ¬ List.Sublist [B, A] (meds lc hass) := by
      intro hBA
      have h1 := meds_sorted hlc hass hBA
      have h2 := (hlc.1 _ _).mp hlt
      omega
    have hne : A ≠ B := by
      rintro rfl
      have := consistent_refl hlc (sortKey A)
      omega
    rcases pair_sublist_or hne hA hB with h | h
    · exact ⟨h, hnot⟩
    · exact absurd h hnot
  · intro heq hsub
    exact sort_stable _ (le_of_eq heq) hsub
  · intro ht
    cases hf : A.attributes.friendly_name with
    | none => simp [hf, truthy] at ht
    | some n =>
      have hn : n ≠ "" := by simpa [hf, truthy] using ht
      simp [sortKey, displayName, orElse, strOr, hf, hn]

theorem meds_order_witness :
    List.Sublist [unnamed, aspirin] (meds codePointCompare sampleHass) ∧
      codePointCompare (sortKey unnamed) (sortKey aspirin) < 0 ∧
      ¬ List.Sublist [aspirin, unnamed] (meds codePointCompare sampleHass) ∧
      sortKey aspirin = displayName aspirin :=
  ⟨((meds_order codePointCompare codePointCompare_consistent sampleHass unnamed aspirin).2.1
      (by decide) (by decide) (by decide)).1,
   by decide,
   ((meds_order codePointCompare codePointCompare_consistent sampleHass unnamed aspirin).2.1
      (by decide) (by decide) (by decide)).2,
   (meds_order codePointCompare codePointCompare_consistent sampleHass aspirin unnamed).2.2.2
      (by decide)⟩

/-! ## Dose history -/

theorem sortedDoses_sorted {lc : String → String → Int} (hlc : Consistent lc)
    (ms : List Entity) :
    (sortedDoses lc ms).Pairwise (fun a b => lc a.timestamp b.timestamp ≤ 0) := by
  have e : compareRows lc = fun a b => lc a.timestamp b.timestamp := by
    funext a b
    simp [compareRows, strOr_empty]
  have h := sort_sorted (fun r : HistoryRow => r.timestamp) hlc (allDoses ms)
  unfold sortedDoses
  rw [e]
  exact h

theorem sortedDoses_length (lc : String → String → Int) (ms : List Entity) :
    (sortedDoses lc ms).length = (allDoses ms).length :=
  (sort_perm _ _).length_eq

theorem update_history (lc : String → String → Int) (html : HostParse) (p : Panel)
    (hass : Hass) (hh : p._hass = some hass) (hs : p.innerHTML ≠ none) :
    (_update lc html p).history = historyContent lc (meds lc hass) := by
  unfold _update
  rw [hh]
  cases hi : p.innerHTML with
  | none => exact absurd hi hs
  | some s => simp [Panel.history]

/-- The claim C4 fails as stated.  Under a comparator that orders letters before looking at
their case, as `localeCompare` does, the doses `9:00 PM` and `9:00 am` of `clock` are written
with `9:00 am` first, although `9:00 am` is lexically greater than `9:00 PM`. -/
theorem lexical_order_counterexample :
    Consistent caseFoldCompare ∧
      sortedDoses caseFoldCompare (meds caseFoldCompare clockHass) =
        [{ name := "Clock", timestamp := "9:00 am" }, { name := "Clock", timestamp := "9:00 PM" }] ∧
      (setHass caseFoldCompare noHostParse mounted (some clockHass)).history =
        tableMarkup
          [{ name := "Clock", timestamp := "9:00 am" }, { name := "Clock", timestamp := "9:00 PM" }] ∧
      0 < codePointCompare "9:00 am" "9:00 PM" :=
  ⟨caseFoldCompare_consistent, by decide, by decide, by decide⟩

/-- C4 (amended): when `_update` runs with a snapshot on a panel whose skeleton is present, the
history rows are a permutation of the flattening of every selected medication's `Doses today`
list into (display name, timestamp) rows, they are in ascending order of `localeCompare` on the
timestamp strings (any earlier row is not after any later row, in particular each row is not
after the next one), and the markup written is the empty-state paragraph when there is no row
and otherwise the table of the rows in that order; no doses give no rows. -/
theorem history_rows (lc : String → String → Int) (html : HostParse) (hlc : Consistent lc)
    (p : Panel) (hass : Hass) (hh : p._hass = some hass) (hs : p.innerHTML ≠ none) :
    (sortedDoses lc (meds lc hass)).Perm
        ((meds lc hass).flatMap (fun m =>
          (m.attributes.doses_today.getD []).map (fun ts =>
            ({ name := orElse m.attributes.friendly_name m.entity_id, timestamp := ts } :
              HistoryRow)))) ∧
      (sortedDoses lc (meds lc hass)).Pairwise (fun a b => lc a.timestamp b.timestamp ≤ 0) ∧
      (sortedDoses lc (meds lc hass)).Chain' (fun a b => ¬ 0 < lc a.timestamp b.timestamp) ∧
      (_update lc html p).history =
        (if (sortedDoses lc (meds lc hass)).length = 0 then "<p>No doses recorded today.</p>"
         else tableMarkup (sortedDoses lc (meds lc hass))) ∧
      ((∀ m ∈ meds lc hass, m.attributes.doses_today.getD [] = []) →
        sortedDoses lc (meds lc hass) = [] ∧
          (_update lc html p).history = "<p>No doses recorded today.</p>") := by
  have hflat : allDoses (meds lc hass) =
      (meds lc hass).flatMap (fun m =>
        (m.attributes.doses_today.getD []).map (fun ts =>
          ({ name := orElse m.attributes.friendly_name m.entity_id, timestamp := ts } :
            HistoryRow))) := by
    unfold allDoses
    congr 1
    funext m
    have : doses m = m.attributes.doses_today.getD [] := by
      unfold doses
      cases m.attributes.doses_today <;> rfl
    rw [this]
    rfl
  have hsorted := sortedDoses_sorted hlc (meds lc hass)
  have hmark : (_update lc html p).history =
      (if (sortedDoses lc (meds lc hass)).length = 0 then "<p>No doses recorded today.</p>"
       else tableMarkup (sortedDoses lc (meds lc hass))) := by
    rw [update_history lc html p hass hh hs, sortedDoses_length]
    rfl
  refine ⟨?_, hsorted, ?_, hmark, ?_⟩
  · rw [← hflat]
    exact sort_perm _ _
  · exact (hsorted.imp (fun h => by omega)).chain'
  · intro hnone
    have h0 : allDoses (meds lc hass) = [] := by
      rw [hflat]
      apply List.flatMap_eq_nil_iff.mpr
      intro m hm
      simp [hnone m hm]
    have h1 : sortedDoses lc (meds lc hass) = [] := by simp [sortedDoses, sort, h0]
    refine ⟨h1, ?_⟩
    rw [hmark, h1]
    rfl

theorem history_rows_witness :
    sortedDoses codePointCompare (meds codePointCompare sampleHass) =
        [{ name := "Aspirin", timestamp := "2024-01-01T08:00:00" },
          { name := "sensor.pa_a", timestamp := "2024-01-01T09:00:00" }] ∧
      (sortedDoses codePointCompare (meds codePointCompare sampleHass)).Pairwise
        (fun a b => codePointCompare a.timestamp b.timestamp ≤ 0) ∧
      (_update codePointCompare noHostParse livePanel).history =
        tableMarkup (sortedDoses codePointCompare (meds codePointCompare sampleHass)) :=
  ⟨by decide,
   (history_rows codePointCompare noHostParse codePointCompare_consistent livePanel sampleHass
      rfl (by decide)).2.1,
   (history_rows codePointCompare noHostParse codePointCompare_consistent livePanel sampleHass
      rfl (by decide)).2.2.2.1⟩

/-! ## The controller: skeleton and refresh -/

theorem update_fields (lc : String → String → Int) (html : HostParse) (p : Panel) :
    (_update lc html p)._rendered = p._rendered ∧ (_update lc html p).renderCalls = p.renderCalls ∧
      (_update lc html p)._hass = p._hass ∧ (_update lc html p)._panel = p._panel ∧
      (p.innerHTML ≠ none → (_update lc html p).innerHTML ≠ none) := by
  unfold _update
  cases hh : p._hass with
  | none => simp [hh]
  | some hass =>
    cases hi : p.innerHTML with
    | none => simp [hh, hi]
    | some s => simp [hh]

theorem update_absent (lc : String → String → Int) (html : HostParse) (p : Panel) (h : p._hass = none) :
    _update lc html p = p := by
  unfold _update
  rw [h]

theorem setHass_of_rendered (lc : String → String → Int) (html : HostParse) (p : Panel) (hass : Option Hass)
    (h : p._rendered = true) : setHass lc html p hass = _update lc html { p with _hass := hass } := by
  simp [setHass, h]

theorem setHass_of_not_rendered (lc : String → String → Int) (html : HostParse) (p : Panel) (hass : Option Hass)
    (h : p._rendered = false) :
    setHass lc html p hass = _update lc html (_render { p with _hass := hass }) := by
  simp [setHass, h]

theorem setHass_fields (lc : String → String → Int) (html : HostParse) (p : Panel) (hass : Option Hass)
    (hinv : p._rendered = true → p.innerHTML ≠ none) :
    (setHass lc html p hass)._rendered = true ∧
      (setHass lc html p hass).renderCalls = (if p._rendered then p.renderCalls else p.renderCalls + 1) ∧
      (setHass lc html p hass)._hass = hass ∧ (setHass lc html p hass)._panel = p._panel ∧
      (setHass lc html p hass).innerHTML ≠ none := by
  cases hr : p._rendered with
  | true =>
    rw [setHass_of_rendered lc html p hass hr]
    have h := update_fields lc html { p with _hass := hass }
    refine ⟨by rw [h.1]; exact hr, by rw [h.2.1]; simp, by rw [h.2.2.1], by rw [h.2.2.2.1], ?_⟩
    exact h.2.2.2.2 (hinv hr)
  | false =>
    rw [setHass_of_not_rendered lc html p hass hr]
    have h := update_fields lc html (_render { p with _hass := hass })
    refine ⟨by rw [h.1]; rfl, by rw [h.2.1]; simp [_render], by rw [h.2.2.1]; rfl,
      by rw [h.2.2.2.1]; rfl, ?_⟩
    exact h.2.2.2.2 (by simp [_render])

theorem deliveries_keep_rendered (lc : String → String → Int) (html : HostParse) :
    ∀ (snaps : List (Option Hass)) (p : Panel), p._rendered = true → p.innerHTML ≠ none →
      (snaps.foldl (setHass lc html) p)._rendered = true ∧
        (snaps.foldl (setHass lc html) p).renderCalls = p.renderCalls ∧
        (snaps.foldl (setHass lc html) p).innerHTML ≠ none ∧
        (snaps.foldl (setHass lc html) p)._panel = p._panel
  | [], _, hr, hi => ⟨hr, rfl, hi, rfl⟩
  | x :: xs, p, hr, hi => by
    have h := setHass_fields lc html p x (fun _ => hi)
    have ih := deliveries_keep_rendered lc html xs (setHass lc html p x) h.1 h.2.2.2.2
    rw [List.foldl_cons]
    refine ⟨ih.1, ?_, ih.2.2.1, ?_⟩
    · rw [ih.2.1, h.2.1]
      simp [hr]
    · rw [ih.2.2.2, h.2.2.2.1]

theorem deliveries_from_mounted (lc : String → String → Int) (html : HostParse) (cfg : Option PanelInfo)
    (snaps : List (Option Hass)) (hne : snaps ≠ []) :
    (snaps.foldl (setHass lc html) (setPanel mounted cfg))._rendered = true ∧
      (snaps.foldl (setHass lc html) (setPanel mounted cfg)).renderCalls = 1 ∧
      (snaps.foldl (setHass lc html) (setPanel mounted cfg)).innerHTML ≠ none ∧
      (snaps.foldl (setHass lc html) (setPanel mounted cfg))._panel = cfg := by
  cases snaps with
  | nil => exact absurd rfl hne
  | cons x xs =>
    have h := setHass_fields lc html (setPanel mounted cfg) x (by simp [setPanel, mounted])
    have ih := deliveries_keep_rendered lc html xs (setHass lc html (setPanel mounted cfg) x) h.1 h.2.2.2.2
    rw [List.foldl_cons]
    refine ⟨ih.1, ?_, ih.2.2.1, ?_⟩
    · rw [ih.2.1, h.2.1]
      simp [setPanel, mounted]
    · rw [ih.2.2.2, h.2.2.2.1]
      rfl

/-- C9: for every non-empty sequence of deliveries through the setter `hass` to a freshly
mounted panel (with any panel description, each delivery a snapshot or an absent value), after
each of the deliveries `_render` has run exactly once and the panel is rendered; no run of
`_render` precedes the first delivery, and any further delivery is just `_update` on the new
connection, leaving the count at one. -/
theorem render_exactly_once (lc : String → String → Int) (html : HostParse) (cfg : Option PanelInfo)
    (snaps : List (Option Hass)) (k : Nat) (hne : snaps ≠ []) (hk : 1 ≤ k) :
    (setPanel mounted cfg).renderCalls = 0 ∧
      ((snaps.take k).foldl (setHass lc html) (setPanel mounted cfg))._rendered = true ∧
      ((snaps.take k).foldl (setHass lc html) (setPanel mounted cfg)).renderCalls = 1 ∧
      ∀ next : Option Hass,
        setHass lc html ((snaps.take k).foldl (setHass lc html) (setPanel mounted cfg)) next =
            _update lc html
              { (snaps.take k).foldl (setHass lc html) (setPanel mounted cfg) with _hass := next } ∧
          (setHass lc html ((snaps.take k).foldl (setHass lc html) (setPanel mounted cfg)) next).renderCalls
            = 1 := by
  have hne' : snaps.take k ≠ [] := by
    cases snaps with
    | nil => exact absurd rfl hne
    | cons x xs =>
      obtain ⟨j, rfl⟩ : ∃ j, k = j + 1 := ⟨k - 1, by omega⟩
      simp
  have h := deliveries_from_mounted lc html cfg (snaps.take k) hne'
  refine ⟨rfl, h.1, h.2.1, ?_⟩
  intro next
  have e := setHass_of_rendered lc html _ next h.1
  refine ⟨e, ?_⟩
  have h2 := setHass_fields lc html _ next (fun _ => h.2.2.1)
  rw [h2.2.1, h.1]
  simpa using h.2.1

theorem render_exactly_once_witness :
    ([some sampleHass, none, some sampleHass].foldl (setHass codePointCompare noHostParse)
        (setPanel mounted none))._rendered = true ∧
      ([some sampleHass, none, some sampleHass].foldl (setHass codePointCompare noHostParse)
        (setPanel mounted none)).renderCalls = 1 :=
  ⟨(render_exactly_once codePointCompare noHostParse none [some sampleHass, none, some sampleHass] 3
      (by simp) (by decide)).2.1,
   (render_exactly_once codePointCompare noHostParse none [some sampleHass, none, some sampleHass] 3
      (by simp) (by decide)).2.2.1⟩

/-- The claim C8 fails as stated.  An absent snapshot delivered to a mounted panel that is
not yet rendered runs `_render`: the rendered flag becomes true and the skeleton is written. -/
theorem absent_snapshot_counterexample :
    mounted._rendered = false ∧ mounted.innerHTML = none ∧
      (setHass codePointCompare noHostParse mounted none)._rendered = true ∧
      (setHass codePointCompare noHostParse mounted none).innerHTML = some skeleton := by
  decide

theorem absent_deliveries_idle (lc : String → String → Int) (html : HostParse) :
    ∀ (n : Nat) (p : Panel), p._rendered = true → p._hass = none →
      (List.replicate n none).foldl (setHass lc html) p = p
  | 0, _, _, _ => rfl
  | n + 1, p, hr, hh => by
    have e : setHass lc html p none = p := by
      rw [setHass_of_rendered lc html p none hr, update_absent lc html _ rfl]
      cases p
      simp only [Panel.mk.injEq, and_true, true_and] at hh ⊢
      exact hh.symm
    rw [List.replicate_succ, List.foldl_cons, e]
    exact absent_deliveries_idle lc html n p hr hh

/-- C8 (amended): starting from a mounted panel that is not yet rendered, after any non-empty
sequence of absent snapshots the skeleton has been built once and the rendered flag is set, but
no refresh has run: the surface is exactly the empty skeleton, with nothing in the badge, the
medication area and the history area; the first real snapshot then fills the three areas. -/
theorem absent_snapshots_draw_skeleton_only (lc : String → String → Int) (html : HostParse)
    (cfg : Option PanelInfo) (n : Nat) (hn : 1 ≤ n) :
    ((List.replicate n none).foldl (setHass lc html) (setPanel mounted cfg))._rendered = true ∧
      ((List.replicate n none).foldl (setHass lc html) (setPanel mounted cfg)).renderCalls = 1 ∧
      ((List.replicate n none).foldl (setHass lc html) (setPanel mounted cfg)).innerHTML
        = some skeleton ∧
      ∀ hass : Hass,
        (setHass lc html ((List.replicate n none).foldl (setHass lc html) (setPanel mounted cfg))
            (some hass)).innerHTML =
          some
            { logPathText :=
                if truthy (logPath (setPanel mounted cfg)) = true then
                  "Log: " ++ orElse (logPath (setPanel mounted cfg)) ""
                else ""
              logPathTitle := "CSV history location"
              medications := medsContent html (meds lc hass)
              history := historyContent lc (meds lc hass) } := by
  obtain ⟨m, rfl⟩ : ∃ m, n = m + 1 := ⟨n - 1, by omega⟩
  have e1 : setHass lc html (setPanel mounted cfg) none =
      { _hass := none, _panel := cfg, _rendered := true, innerHTML := some skeleton,
        renderCalls := 1 } := by
    simp [setHass, setPanel, mounted, _render, _update]
  have e2 : (List.replicate (m + 1) none).foldl (setHass lc html) (setPanel mounted cfg) =
      { _hass := none, _panel := cfg, _rendered := true, innerHTML := some skeleton,
        renderCalls := 1 } := by
    rw [List.replicate_succ, List.foldl_cons, e1]
    exact absent_deliveries_idle lc html m _ rfl rfl
  rw [e2]
  refine ⟨rfl, rfl, rfl, ?_⟩
  intro hass
  simp [setHass, _update, logPath, setPanel, mounted]

theorem absent_snapshots_draw_skeleton_only_witness :
    ((List.replicate 3 none).foldl (setHass codePointCompare noHostParse) (setPanel mounted none)).innerHTML
      = some skeleton :=
  (absent_snapshots_draw_skeleton_only codePointCompare noHostParse none 3 (by decide)).2.2.1


/-! ## Click handlers -/

theorem mem_attachHandlers (cards : List Card) (b : Button) :
    b ∈ (attachHandlers cards).flatMap Card.buttons ↔
      ∃ c ∈ cards, ∃ b0 ∈ c.buttons, b = addEventListener b0 := by
  induction cards with
  | nil => simp [attachHandlers]
  | cons c cs ih =>
    have e : (attachHandlers (c :: cs)).flatMap Card.buttons =
        c.buttons.map addEventListener ++ (attachHandlers cs).flatMap Card.buttons := by
      simp [attachHandlers, List.flatMap_cons]
    rw [e, List.mem_append, ih, List.mem_map]
    constructor
    · rintro (⟨b0, hb0, rfl⟩ | ⟨c', hc', b0, hb0, hb⟩)
      · exact ⟨c, List.mem_cons_self _ _, b0, hb0, rfl⟩
      · exact ⟨c', List.mem_cons_of_mem _ hc', b0, hb0, hb⟩
    · rintro ⟨c', hc', b0, hb0, hb⟩
      rcases List.mem_cons.mp hc' with rfl | hc'
      · exact Or.inl ⟨b0, hb0, hb.symm⟩
      · exact Or.inr ⟨c', hc', b0, hb0, hb⟩

theorem mem_buttons_medsContent (html : HostParse) (ms : List Entity) (b : Button) :
    b ∈ (medsContent html ms).buttons ↔
      ∃ e ∈ ms, ∃ b0 ∈ (card html e).buttons, b = addEventListener b0 := by
  unfold medsContent
  split
  · next h =>
    have h0 : ms = [] := List.length_eq_zero.mp h
    simp [MedsContent.buttons, h0]
  · rw [MedsContent.buttons, mem_attachHandlers]
    constructor
    · rintro ⟨c, hc, b0, hb0, hb⟩
      obtain ⟨e, he, hce⟩ := List.mem_map.mp hc
      exact ⟨e, he, b0, hce ▸ hb0, hb⟩
    · rintro ⟨e, he, b0, hb0, hb⟩
      exact ⟨card html e, List.mem_map.mpr ⟨e, he, rfl⟩, b0, hb0, hb⟩

theorem listeners_querySelectorAll (html : HostParse) (markup : String) (b0 : Button)
    (h : b0 ∈ querySelectorAll html markup) : b0.listeners = 0 := by
  unfold querySelectorAll at h
  obtain ⟨x, _, rfl⟩ := List.mem_map.mp h
  rfl

theorem listeners_card (html : HostParse) (e : Entity) (b0 : Button)
    (h : b0 ∈ (card html e).buttons) : b0.listeners = 0 := by
  have h2 : b0 ∈ querySelectorAll html (cardMarkup e) := by simpa only [card] using h
  exact listeners_querySelectorAll html (cardMarkup e) b0 h2

theorem setHass_some_state (lc : String → String → Int) (html : HostParse) (p : Panel)
    (hass : Hass) (hinv : p._rendered = true → p.innerHTML ≠ none) :
    (setHass lc html p (some hass))._hass = some hass ∧
      (setHass lc html p (some hass)).buttons = (medsContent html (meds lc hass)).buttons := by
  cases hr : p._rendered with
  | true =>
    cases hi : p.innerHTML with
    | none => exact absurd hi (hinv hr)
    | some s => simp [setHass, hr, _update, hi, Panel.buttons]
  | false => simp [setHass, hr, _update, _render, Panel.buttons]

theorem deliveries_inv (lc : String → String → Int) (html : HostParse)
    (cfg : Option PanelInfo) (snaps : List (Option Hass)) :
    (snaps.foldl (setHass lc html) (setPanel mounted cfg))._rendered = true →
      (snaps.foldl (setHass lc html) (setPanel mounted cfg)).innerHTML ≠ none := by
  intro _
  cases snaps with
  | nil => simp_all [setPanel, mounted]
  | cons x xs => exact (deliveries_from_mounted lc html cfg (x :: xs) (by simp)).2.2.1

theorem deliveries_last (lc : String → String → Int) (html : HostParse)
    (cfg : Option PanelInfo) (snaps : List Hass) (hne : snaps ≠ []) :
    ((snaps.map some).foldl (setHass lc html) (setPanel mounted cfg))._hass
        = some (snaps.getLast hne) ∧
      ((snaps.map some).foldl (setHass lc html) (setPanel mounted cfg)).buttons
        = (medsContent html (meds lc (snaps.getLast hne))).buttons := by
  rcases List.eq_nil_or_concat snaps with h | ⟨init, last, rfl⟩
  · exact absurd h hne
  · simp only [List.concat_eq_append, List.getLast_append_singleton, List.map_append,
      List.foldl_append, List.map_cons, List.map_nil, List.foldl_cons, List.foldl_nil]
    exact setHass_some_state lc html _ last (deliveries_inv lc html cfg (init.map some))

theorem handleAction_calls (p : Panel) (hass : Hass) (b : Button) (m a : String)
    (hp : p._hass = some hass) (hb : b.med = some m) (hm : m ≠ "") (hact : b.action = some a)
    (ha : a = "take" ∨ a = "snooze" ∨ a = "test") :
    ∃ svc : String,
      (_handleAction p b).1 =
        [{ domain := "pill_assistant", service := svc, medication_id := m }] := by
  rcases ha with rfl | rfl | rfl
  · exact ⟨"take_medication", by simp [_handleAction, hp, hb, hact, truthy, orElse, strOr, hm]⟩
  · exact ⟨"snooze_medication",
      by simp [_handleAction, hp, hb, hact, truthy, orElse, strOr, hm]⟩
  · exact ⟨"test_notification",
      by simp [_handleAction, hp, hb, hact, truthy, orElse, strOr, hm]⟩

theorem handleAction_no_id (p : Panel) (b : Button) (hb : b.med = none ∨ b.med = some "") :
    (_handleAction p b).1 = [] := by
  unfold _handleAction
  cases p._hass with
  | none => rfl
  | some hass => rcases hb with h | h <;> simp [h, truthy]

theorem click_one_listener (p : Panel) (b : Button) (h : b.listeners = 1) :
    click p b = (_handleAction p b).1 := by
  simp [click, h]

/-- The claim C10 fails as stated.  After the snapshot `quoteHass`, which holds one medication
entity, the grid holds three controls with one listener each; the control of action kind
`take` carries an empty medication id, and a click on it issues no service call. -/
theorem click_counterexample :
    (∃ e ∈ Object.values quoteHass.states, startsWith e.entity_id "sensor.pa_" = true) ∧
      (setHass codePointCompare noHostParse mounted (some quoteHass)).buttons =
        [{ action := some "take", med := some "", listeners := 1 },
          { action := some "snooze", med := some "", listeners := 1 },
          { action := some "test", med := some "", listeners := 1 }] ∧
      click (setHass codePointCompare noHostParse mounted (some quoteHass))
        { action := some "take", med := some "", listeners := 1 } = [] := by
  decide

/-- C10 (amended): after `N ≥ 1` snapshots, each holding at least one medication entity, have
been delivered to a freshly mounted panel, every action control of the grid carries exactly one
click listener, so a click on it runs `_handleAction` exactly once: this issues exactly one
service call, of domain `pill_assistant` and with the control's medication id, when that id is
non-empty and the action kind is `take`, `snooze` or `test`, and no call when the id is absent
or empty.  When the strings interpolated into the cards of the last snapshot hold no markup
character, the grid holds controls and a click on any of them issues exactly one call. -/
theorem one_handler_per_control (lc : String → String → Int) (html : HostParse)
    (cfg : Option PanelInfo) (snaps : List Hass) (hne : snaps ≠ [])
    (hmed : ∀ h ∈ snaps, ∃ e ∈ Object.values h.states,
      startsWith e.entity_id "sensor.pa_" = true) :
    (∀ b ∈ ((snaps.map some).foldl (setHass lc html) (setPanel mounted cfg)).buttons,
      b.listeners = 1 ∧
        click ((snaps.map some).foldl (setHass lc html) (setPanel mounted cfg)) b =
          (_handleAction ((snaps.map some).foldl (setHass lc html) (setPanel mounted cfg)) b).1 ∧
        (∀ m a : String, b.med = some m → m ≠ "" → b.action = some a →
          (a = "take" ∨ a = "snooze" ∨ a = "test") →
          ∃ c : ServiceCall,
            click ((snaps.map some).foldl (setHass lc html) (setPanel mounted cfg)) b = [c] ∧
              c.domain = "pill_assistant" ∧ c.medication_id = m) ∧
        ((b.med = none ∨ b.med = some "") →
          click ((snaps.map some).foldl (setHass lc html) (setPanel mounted cfg)) b = [])) ∧
    ((∀ e ∈ meds lc (snaps.getLast hne), plainCard e = true) →
      ((snaps.map some).foldl (setHass lc html) (setPanel mounted cfg)).buttons ≠ [] ∧
        ∀ b ∈ ((snaps.map some).foldl (setHass lc html) (setPanel mounted cfg)).buttons,
          ∃ c : ServiceCall,
            click ((snaps.map some).foldl (setHass lc html) (setPanel mounted cfg)) b = [c] ∧
              c.domain = "pill_assistant" ∧ b.med = some c.medication_id) := by
  obtain ⟨hhass, hbuttons⟩ := deliveries_last lc html cfg snaps hne
  have hlis : ∀ b ∈ ((snaps.map some).foldl (setHass lc html) (setPanel mounted cfg)).buttons,
      b.listeners = 1 := by
    intro b hb
    rw [hbuttons] at hb
    obtain ⟨e, _, b0, hb0, rfl⟩ := (mem_buttons_medsContent html _ b).mp hb
    simp [addEventListener, listeners_card html e b0 hb0]
  constructor
  · intro b hb
    have h1 := hlis b hb
    refine ⟨h1, click_one_listener _ b h1, ?_, ?_⟩
    · intro m a hm hne' hact ha
      obtain ⟨svc, hsvc⟩ := handleAction_calls _ (snaps.getLast hne) b m a hhass hm hne' hact ha
      exact ⟨⟨"pill_assistant", svc, m⟩, by rw [click_one_listener _ b h1, hsvc], rfl, rfl⟩
    · intro hno
      rw [click_one_listener _ b h1, handleAction_no_id _ b hno]
  · intro hplain
    obtain ⟨e, he, hpre⟩ := hmed (snaps.getLast hne) (List.getLast_mem hne)
    have hmem : e ∈ meds lc (snaps.getLast hne) := (mem_meds lc _ e).mpr ⟨he, hpre⟩
    constructor
    · intro hnil
      have hin : addEventListener { action := some "take", med := some (medId e), listeners := 0 }
          ∈ (medsContent html (meds lc (snaps.getLast hne))).buttons :=
        (mem_buttons_medsContent html _ _).mpr
          ⟨e, hmem, _, by rw [card_buttons_plain html e (hplain e hmem)]; simp, rfl⟩
      rw [← hbuttons, hnil] at hin
      cases hin
    · intro b hb
      have h1 := hlis b hb
      rw [hbuttons] at hb
      obtain ⟨e', he', b0, hb0, rfl⟩ := (mem_buttons_medsContent html _ b).mp hb
      rw [card_buttons_plain html e' (hplain e' he')] at hb0
      have hm : medId e' ≠ "" :=
        orElse_ne_empty _ _ (startsWith_ne_empty _ ((mem_meds lc _ e').mp he').2)
      simp only [List.mem_cons, List.mem_singleton, List.not_mem_nil, or_false] at hb0
      rcases hb0 with rfl | rfl | rfl
      · obtain ⟨svc, hsvc⟩ := handleAction_calls _ (snaps.getLast hne)
          (addEventListener { action := some "take", med := some (medId e'), listeners := 0 })
          (medId e') "take" hhass rfl hm rfl (Or.inl rfl)
        exact ⟨⟨"pill_assistant", svc, medId e'⟩, by rw [click_one_listener _ _ h1, hsvc],
          rfl, rfl⟩
      · obtain ⟨svc, hsvc⟩ := handleAction_calls _ (snaps.getLast hne)
          (addEventListener { action := some "snooze", med := some (medId e'), listeners := 0 })
          (medId e') "snooze" hhass rfl hm rfl (Or.inr (Or.inl rfl))
        exact ⟨⟨"pill_assistant", svc, medId e'⟩, by rw [click_one_listener _ _ h1, hsvc],
          rfl, rfl⟩
      · obtain ⟨svc, hsvc⟩ := handleAction_calls _ (snaps.getLast hne)
          (addEventListener { action := some "test", med := some (medId e'), listeners := 0 })
          (medId e') "test" hhass rfl hm rfl (Or.inr (Or.inr rfl))
        exact ⟨⟨"pill_assistant", svc, medId e'⟩, by rw [click_one_listener _ _ h1, hsvc],
          rfl, rfl⟩

theorem one_handler_per_control_witness :
    (([sampleHass, sampleHass, sampleHass].map some).foldl
        (setHass codePointCompare noHostParse) (setPanel mounted none)).buttons.map
          Button.listeners = [1, 1, 1, 1, 1, 1] ∧
      ∀ b ∈ (([sampleHass, sampleHass, sampleHass].map some).foldl
          (setHass codePointCompare noHostParse) (setPanel mounted none)).buttons,
        ∃ c : ServiceCall,
          click (([sampleHass, sampleHass, sampleHass].map some).foldl
            (setHass codePointCompare noHostParse) (setPanel mounted none)) b = [c] ∧
            c.domain = "pill_assistant" ∧ b.med = some c.medication_id :=
  ⟨by decide,
   ((one_handler_per_control codePointCompare noHostParse none
      [sampleHass, sampleHass, sampleHass] (by simp) (by decide)).2 (by decide)).2⟩

end PillAssistant
